import Mathlib

/-!
# PlateWatchers — verification of the vote-to-score reconciliation engine

Shallow embedding of the voting core of the PlateWatchers application
(`src/App.tsx`, `src/contexts/AuthContext.tsx`, `src/services/geminiService.ts`,
the serverless Places handlers), together with theorems settling the frozen
claims about it.

The ledger model follows `src/App.tsx`:
* `CategoryVote` / `UserVoteRecord` mirror the types of `src/types.ts`;
  `categoryVotes` is a key-value record (association list, insertion order kept,
  one entry per category key), `overallTopPick` a nullable restaurant id.
* `handleVote` embeds the pure state/delta core of `handleVote`
  (App.tsx lines 241-293): the document writes/deletes on the `user_votes`
  collection become the record update, the `syncVoteToFirebase` calls become
  the emitted `(restaurantId, signedDelta)` list, in call order.
* `handleVoteOverall` embeds App.tsx lines 295-328 the same way.
* `getRestaurantPoints` embeds App.tsx lines 330-338.
-/

/-- The two per-category vote slots (`'top' | 'runnerUp'` in the source). -/
inductive Slot where
  | top
  | runnerUp
deriving DecidableEq, Repr

/-- Point weight of a slot: Top Choice = 100, Runner-Up = 25. -/
def slotWeight : Slot → Int
  | .top => 100
  | .runnerUp => 25

/-- The opposite slot (`otherType` in `handleVote`). -/
def otherSlot : Slot → Slot
  | .top => .runnerUp
  | .runnerUp => .top

/-- `CategoryVote` from `src/types.ts`: the user's two selections in one
category, each nullable. -/
structure CategoryVote where
  topId : Option String
  runnerUpId : Option String
deriving DecidableEq, Repr

/-- A category with no votes (`{ topId: null, runnerUpId: null }`). -/
def emptyCategoryVote : CategoryVote := ⟨none, none⟩

/-- Read a slot of a `CategoryVote`. -/
def getSlot (v : CategoryVote) : Slot → Option String
  | .top => v.topId
  | .runnerUp => v.runnerUpId

/-- Write a slot of a `CategoryVote`. -/
def setSlot (v : CategoryVote) : Slot → Option String → CategoryVote
  | .top, x => { v with topId := x }
  | .runnerUp, x => { v with runnerUpId := x }

/-- `UserVoteRecord` from `src/types.ts`: a record from category label to
`CategoryVote` (modelled as an association list in insertion order, as the
JS object / Firestore doc set behaves), plus the single overall pick. -/
structure UserVoteRecord where
  categoryVotes : List (String × CategoryVote)
  overallTopPick : Option String
deriving DecidableEq, Repr

/-- The initial ledger `{ categoryVotes: {}, overallTopPick: null }`. -/
def emptyRecord : UserVoteRecord := ⟨[], none⟩

/-- Record lookup `categoryVotes[category]`; a missing key behaves as the
empty `CategoryVote` (the source reads `current?.topId` etc., where an
absent entry yields `undefined`, which compares unequal to every id). -/
def lookupCat : List (String × CategoryVote) → String → CategoryVote
  | [], _ => emptyCategoryVote
  | (k, v) :: rest, c => if k = c then v else lookupCat rest c

/-- Record update `categoryVotes[category] = v`: replaces the existing entry
for the key, or appends a fresh entry (implicit category creation). -/
def setAssoc : List (String × CategoryVote) → String → CategoryVote → List (String × CategoryVote)
  | [], c, v => [(c, v)]
  | (k, w) :: rest, c, v => if k = c then (c, v) :: rest else (k, w) :: setAssoc rest c v

/-- The `CategoryVote` a ledger holds for a category. -/
def getCat (s : UserVoteRecord) (c : String) : CategoryVote :=
  lookupCat s.categoryVotes c

/-- The negative delta emitted for a displaced previous slot holder
(`if (prevId && prevId !== id) syncVoteToFirebase(prevId, -w)`). -/
def removalDelta (prev : Option String) (id : String) (w : Int) : List (String × Int) :=
  match prev with
  | some p => if p ≠ id then [(p, -w)] else []
  | none => []

/-- Pure core of `handleVote` (App.tsx 241-293): given the current ledger, a
restaurant id, a category and a slot, returns the updated ledger and the
signed deltas pushed to the global tally, in the order the source emits them.

* toggle off: the slot already holds `id` — clear it, emit `-w`;
* otherwise: emit `-w` for a different previous holder of the slot, clear the
  opposite slot (emitting its negative weight) when it holds `id`, then set
  the slot to `id` and emit `+w`. -/
def handleVote (s : UserVoteRecord) (id category : String) (slot : Slot) :
    UserVoteRecord × List (String × Int) :=
  let current := getCat s category
  if getSlot current slot = some id then
    ({ s with categoryVotes := setAssoc s.categoryVotes category (setSlot current slot none) },
      [(id, -slotWeight slot)])
  else
    let prevDeltas := removalDelta (getSlot current slot) id (slotWeight slot)
    let cleared :=
      if getSlot current (otherSlot slot) = some id then setSlot current (otherSlot slot) none
      else current
    let otherDeltas : List (String × Int) :=
      if getSlot current (otherSlot slot) = some id then [(id, -slotWeight (otherSlot slot))]
      else []
    let final := setSlot cleared slot (some id)
    ({ s with categoryVotes := setAssoc s.categoryVotes category final },
      prevDeltas ++ otherDeltas ++ [(id, slotWeight slot)])

/-- Pure core of `handleVoteOverall` (App.tsx 295-328): toggle-off semantics
on the single overall slot with weight 500; a different previous pick is
cleared (−500) before the new one is set (+500). -/
def handleVoteOverall (s : UserVoteRecord) (id : String) :
    UserVoteRecord × List (String × Int) :=
  if s.overallTopPick = some id then
    ({ s with overallTopPick := none }, [(id, -500)])
  else
    let prevDeltas := removalDelta s.overallTopPick id 500
    ({ s with overallTopPick := some id }, prevDeltas ++ [(id, 500)])

/-- One vote transition: a category vote or an overall pick. -/
inductive VoteAction where
  | cat (id category : String) (slot : Slot)
  | overall (id : String)
deriving DecidableEq, Repr

/-- Apply one transition to a ledger. -/
def voteTransition (s : UserVoteRecord) : VoteAction → UserVoteRecord × List (String × Int)
  | .cat id c slot => handleVote s id c slot
  | .overall id => handleVoteOverall s id

/-- Run a sequence of transitions, collecting all emitted deltas in order. -/
def runVotes (s : UserVoteRecord) : List VoteAction → UserVoteRecord × List (String × Int)
  | [] => (s, [])
  | a :: as =>
    let step := voteTransition s a
    let rest := runVotes step.1 as
    (rest.1, step.2 ++ rest.2)

/-- Sum of the signed deltas emitted for one restaurant id. -/
def deltaSumFor (ds : List (String × Int)) (id : String) : Int :=
  (ds.map (fun d => if d.1 = id then d.2 else 0)).sum

/-- Contribution of one category's `CategoryVote` to a restaurant id:
100 for holding the top slot, 25 for the runner-up slot. -/
def catScoreFor (v : CategoryVote) (id : String) : Int :=
  (if v.topId = some id then 100 else 0) + (if v.runnerUpId = some id then 25 else 0)

/-- Total currently-active vote weight a ledger assigns to a restaurant id:
per-category slot weights summed over all category entries, plus 500 when the
id is the overall pick. -/
def ledgerScore (s : UserVoteRecord) (id : String) : Int :=
  (s.categoryVotes.map (fun e => catScoreFor e.2 id)).sum
    + (if s.overallTopPick = some id then 500 else 0)

/-- The score the claim's indicator formula assigns: 100 if the id is top in
some category, plus 25 if it is runner-up in some category, plus 500 if it is
the overall pick (written from the claim's words, for comparison with the
code's actual delta sums). -/
def claimIndicatorScore (s : UserVoteRecord) (id : String) : Int :=
  (if s.categoryVotes.any (fun e => e.2.topId == some id) then 100 else 0)
    + (if s.categoryVotes.any (fun e => e.2.runnerUpId == some id) then 25 else 0)
    + (if s.overallTopPick = some id then 500 else 0)

/-- Mutual-exclusion invariant of one category: `topId ≠ runnerUpId` unless
both are null. -/
def mutualExclusion (v : CategoryVote) : Prop :=
  (v.topId = none ∧ v.runnerUpId = none) ∨ v.topId ≠ v.runnerUpId

instance (v : CategoryVote) : Decidable (mutualExclusion v) := by
  unfold mutualExclusion; infer_instance

/-- A ledger is well formed when every category satisfies mutual exclusion. -/
def wellFormed (s : UserVoteRecord) : Prop :=
  ∀ c, mutualExclusion (getCat s c)

/-- Contribution of the overall pick to one restaurant id (500 or 0). -/
def overallContribution (s : UserVoteRecord) (id : String) : Int :=
  if s.overallTopPick = some id then 500 else 0

/-- `Restaurant` from `src/types.ts`, restricted to the fields the core
reads: id, name, category, address, optional Google place type, base score. -/
structure Restaurant where
  id : String
  name : String
  category : String
  address : String
  googlePlaceType : Option String
  basePoints : Int
deriving DecidableEq, Repr

/-- Snapshot lookup `globalScores[id] || 0`: the stored integer, or 0 when the
id has no entry. -/
def lookupScore : List (String × Int) → String → Int
  | [], _ => 0
  | (k, n) :: rest, id => if k = id then n else lookupScore rest id

/-- `getRestaurantPoints` (App.tsx 330-338): base score, plus the global
snapshot entry for the restaurant's id (0 when absent), plus the local user's
boost — 100/25 from the `CategoryVote` stored under the restaurant's own
category, and 500 when the restaurant is the overall pick. -/
def getRestaurantPoints (globalScores : List (String × Int)) (userVotes : UserVoteRecord)
    (r : Restaurant) : Int :=
  let globalPts := lookupScore globalScores r.id
  let catVote := getCat userVotes r.category
  let userBoost : Int :=
    (if catVote.topId = some r.id then 100 else 0)
      + (if catVote.runnerUpId = some r.id then 25 else 0)
      + (if userVotes.overallTopPick = some r.id then 500 else 0)
  r.basePoints + globalPts + userBoost

/-- `localUserContribution(id, ledger)` written from the spec's words (§4.4):
100 if the ledger's top vote in the restaurant's category is the id, plus 25
if runner-up, plus 500 if the id is the overall pick. -/
def localUserContribution (id category : String) (uv : UserVoteRecord) : Int :=
  (if (getCat uv category).topId = some id then 100 else 0)
    + (if (getCat uv category).runnerUpId = some id then 25 else 0)
    + (if uv.overallTopPick = some id then 500 else 0)

/-- `computeTotal` written from the spec's words (§4.4):
`baseScore + (globalSnapshot ? globalSnapshot[id] ?? 0 : 0) + localUserContribution`. -/
def computeTotalSpec (r : Restaurant) (uv : UserVoteRecord)
    (snapshot : Option (List (String × Int))) : Int :=
  r.basePoints
    + (match snapshot with
       | some gs => lookupScore gs r.id
       | none => 0)
    + localUserContribution r.id r.category uv

/- ### Search filter, grouping and top-N (App.tsx 340-363 and 392-397) -/

/-- ASCII `toLowerCase` on a string, character by character. -/
def lowerStr (s : String) : String :=
  String.mk (s.toList.map Char.toLower)

/-- Drop leading whitespace of a character list. -/
def dropWsLeft : List Char → List Char
  | [] => []
  | ch :: rest => if ch.isWhitespace then dropWsLeft rest else ch :: rest

/-- `trim`: drop whitespace at both ends. -/
def trimStr (s : String) : String :=
  String.mk ((dropWsLeft ((dropWsLeft s.toList.reverse)).reverse))

/-- Split a character list into the maximal whitespace-free tokens, with the
token being accumulated (in reverse) as first argument. -/
def wsTokensAux : List Char → List Char → List String
  | acc, [] => if acc.isEmpty then [] else [String.mk acc.reverse]
  | acc, ch :: rest =>
    if ch.isWhitespace then
      if acc.isEmpty then wsTokensAux [] rest
      else String.mk acc.reverse :: wsTokensAux [] rest
    else wsTokensAux (ch :: acc) rest

/-- The lowercased, trimmed, whitespace-split, nonempty search terms
(`query.toLowerCase().trim().split(/\s+/).filter(t => t.length > 0)`:
splitting on whitespace runs and keeping nonempty tokens). -/
def queryTerms (q : String) : List String :=
  wsTokensAux [] (trimStr (lowerStr q)).toList

/-- The searchable text of a restaurant:
name, category, place type and address, lowercased. -/
def searchableText (r : Restaurant) : String :=
  lowerStr (r.name ++ " " ++ r.category ++ " " ++ (r.googlePlaceType.getD "") ++ " " ++ r.address)

/-- Substring occurrence on character lists (JS `String.prototype.includes`). -/
def charsInclude (pat : List Char) : List Char → Bool
  | [] => pat.isEmpty
  | c :: rest => pat.isPrefixOf (c :: rest) || charsInclude pat rest

/-- `s.includes(pat)`. -/
def strIncludes (s pat : String) : Bool :=
  charsInclude pat.toList s.toList

/-- The instant local filter of `groupedRestaurants`: when the query yields
terms, every term must occur in the searchable text (AND logic). -/
def passesFilter (q : String) (r : Restaurant) : Bool :=
  let terms := queryTerms q
  if terms.length > 0 then terms.all (fun t => strIncludes (searchableText r) t)
  else true

/-- `groups[r.category].push(r)` with implicit bucket creation. -/
def addToGroup : List (String × List Restaurant) → Restaurant → List (String × List Restaurant)
  | [], r => [(r.category, [r])]
  | (k, rs) :: rest, r =>
    if k = r.category then (k, rs ++ [r]) :: rest else (k, rs) :: addToGroup rest r

/-- Stable descending insertion by a score key (one stable realisation of
`sort((a, b) => key(b) - key(a))`). -/
def insertDesc (key : Restaurant → Int) (r : Restaurant) : List Restaurant → List Restaurant
  | [] => [r]
  | x :: xs => if key r ≤ key x then x :: insertDesc key r xs else r :: x :: xs

/-- Stable sort, descending by `getRestaurantPoints`. -/
def sortByPointsDesc (gs : List (String × Int)) (uv : UserVoteRecord)
    (rs : List Restaurant) : List Restaurant :=
  rs.foldr (insertDesc (getRestaurantPoints gs uv)) []

/-- `groupedRestaurants` (App.tsx 340-363): filter by the search terms, group
the survivors by category in encounter order, then sort every bucket
descending by `getRestaurantPoints`. -/
def groupedRestaurants (q : String) (gs : List (String × Int)) (uv : UserVoteRecord)
    (rs : List Restaurant) : List (String × List Restaurant) :=
  ((rs.filter (passesFilter q)).foldl addToGroup []).map
    (fun e => (e.1, sortByPointsDesc gs uv e.2))

/-- `topRestaurants` (App.tsx 392-397): ALL restaurants — no search filter —
sorted descending by `getRestaurantPoints`, first 10. -/
def topRestaurants (gs : List (String × Int)) (uv : UserVoteRecord)
    (rs : List Restaurant) : List Restaurant :=
  (sortByPointsDesc gs uv rs).take 10

/- ### The stored vote documents and admin recategorization
(`user_votes` collection; App.tsx 48-75, AuthContext.tsx 450-481) -/

/-- `voteType` of a stored vote document. -/
inductive VoteKind where
  | top
  | runnerUp
  | overall
deriving DecidableEq, Repr

/-- One document of the `user_votes` collection. Overall-pick documents are
written without a `category` field (App.tsx 316-322), hence the `Option`. -/
structure StoredVote where
  userId : String
  restaurantId : String
  category : Option String
  voteType : VoteKind
deriving DecidableEq, Repr

/-- One step of the vote-record rebuild (App.tsx 56-70): an overall document
sets the overall pick, a top/runnerUp document sets the corresponding slot of
its category (creating the entry when needed). Category documents always
carry a category; a missing one leaves the record unchanged. -/
def applyVoteDoc (votes : UserVoteRecord) (d : StoredVote) : UserVoteRecord :=
  match d.voteType, d.category with
  | .overall, _ => { votes with overallTopPick := some d.restaurantId }
  | .top, some c =>
    let old := lookupCat votes.categoryVotes c
    { votes with categoryVotes := setAssoc votes.categoryVotes c { old with topId := some d.restaurantId } }
  | .top, none => votes
  | .runnerUp, some c =>
    let old := lookupCat votes.categoryVotes c
    { votes with categoryVotes := setAssoc votes.categoryVotes c { old with runnerUpId := some d.restaurantId } }
  | .runnerUp, none => votes

/-- Rebuild one user's `UserVoteRecord` from the stored documents (the
`onSnapshot` handler of App.tsx 54-72, whose query filters on the user id). -/
def buildRecord (u : String) (docs : List StoredVote) : UserVoteRecord :=
  (docs.filter (fun d => d.userId == u)).foldl applyVoteDoc emptyRecord

/-- The batched delete of `updateRestaurantCategory` (AuthContext.tsx
461-472): remove every stored vote whose `restaurantId` is the given id and
whose `category` equals the old category. -/
def purgeVotes (docs : List StoredVote) (rid oldCat : String) : List StoredVote :=
  docs.filter (fun d => !(d.restaurantId == rid && d.category == some oldCat))

/-- The batched `update(restaurantRef, { category: newCategory })`. -/
def recategorizeRestaurants (rs : List Restaurant) (rid newCat : String) : List Restaurant :=
  rs.map (fun r => if r.id = rid then { r with category := newCat } else r)

/-- `updateRestaurantCategory` (AuthContext.tsx 450-481): the committed write
batch, as one state transition on (restaurants, stored votes). -/
def updateRestaurantCategory (rs : List Restaurant) (docs : List StoredVote)
    (rid newCat oldCat : String) : List Restaurant × List StoredVote :=
  (recategorizeRestaurants rs rid newCat, purgeVotes docs rid oldCat)

/-- Effect of one stored document on the `CategoryVote` of a fixed category
(projection of `applyVoteDoc`). -/
def catDocStep (c : String) (v : CategoryVote) (d : StoredVote) : CategoryVote :=
  match d.voteType, d.category with
  | .overall, _ => v
  | .top, some k => if k = c then { v with topId := some d.restaurantId } else v
  | .top, none => v
  | .runnerUp, some k => if k = c then { v with runnerUpId := some d.restaurantId } else v
  | .runnerUp, none => v

/-- Effect of one stored document on the overall pick (projection of
`applyVoteDoc`). -/
def ovDocStep (x : Option String) (d : StoredVote) : Option String :=
  match d.voteType with
  | .overall => some d.restaurantId
  | _ => x

/- ### Global tally sync (App.tsx 114-139 and 231-239) -/

/-- `setDoc(ref, { points: increment(delta) }, { merge: true })` on the
`global_rankings` document of the id: add to the stored value, creating the
entry at `delta` when absent. -/
def incrementScore : List (String × Int) → String → Int → List (String × Int)
  | [], id, delta => [(id, delta)]
  | (k, n) :: rest, id, delta =>
    if k = id then (k, n + delta) :: rest else (k, n) :: incrementScore rest id delta

/-- `syncVoteToFirebase` (App.tsx 231-239): returns without touching the
tally unless a database handle is present and the global subscription is
live. -/
def syncVoteToFirebase (dbPresent isGlobalLive : Bool) (gs : List (String × Int))
    (id : String) (delta : Int) : List (String × Int) :=
  if !dbPresent || !isGlobalLive then gs
  else incrementScore gs id delta

/-- Push a list of deltas through `syncVoteToFirebase` in order. -/
def syncDeltas (dbPresent isGlobalLive : Bool) (gs : List (String × Int))
    (ds : List (String × Int)) : List (String × Int) :=
  ds.foldl (fun g d => syncVoteToFirebase dbPresent isGlobalLive g d.1 d.2) gs

/-- A full vote transition including its tally pushes: `handleVote` /
`handleVoteOverall` bail out before any state change when no database handle
exists (`if (!db) return;`), otherwise the ledger updates and every emitted
delta goes through `syncVoteToFirebase`. -/
def voteStepFull (dbPresent isGlobalLive : Bool) (gs : List (String × Int))
    (s : UserVoteRecord) (a : VoteAction) : List (String × Int) × UserVoteRecord :=
  if !dbPresent then (gs, s)
  else (syncDeltas dbPresent isGlobalLive gs (voteTransition s a).2, (voteTransition s a).1)

/- ### Restaurant identifiers of the search / hydration pipeline
(geminiService.ts, api/validate handler, api/hydrate handler) -/

/-- UTF-8 encoding of one character (the byte string `safeBtoa` feeds to
`btoa` after `encodeURIComponent` round-tripping). -/
def utf8Bytes (ch : Char) : List Nat :=
  let n := ch.toNat
  if n < 128 then [n]
  else if n < 2048 then [192 + n / 64, 128 + n % 64]
  else if n < 65536 then [224 + n / 4096, 128 + (n / 64) % 64, 128 + n % 64]
  else [240 + n / 262144, 128 + (n / 4096) % 64, 128 + (n / 64) % 64, 128 + n % 64]

/-- UTF-8 bytes of a string. -/
def strBytes (s : String) : List Nat :=
  s.toList.foldr (fun ch acc => utf8Bytes ch ++ acc) []

/-- The base64 alphabet. -/
def base64Alphabet : List Char :=
  "ABCDEFGHIJKLMNOPQRSTUVWXYZabcdefghijklmnopqrstuvwxyz0123456789+/".toList

/-- Base64 digit for a 6-bit value. -/
def b64Char (n : Nat) : Char :=
  base64Alphabet.getD n 'A'

/-- Standard base64 encoding of a byte list (`btoa`). -/
def base64Encode : List Nat → List Char
  | [] => []
  | [b1] => [b64Char (b1 / 4), b64Char (b1 % 4 * 16), '=', '=']
  | [b1, b2] => [b64Char (b1 / 4), b64Char (b1 % 4 * 16 + b2 / 16), b64Char (b2 % 16 * 4), '=']
  | b1 :: b2 :: b3 :: rest =>
    b64Char (b1 / 4) :: b64Char (b1 % 4 * 16 + b2 / 16)
      :: b64Char (b2 % 16 * 4 + b3 / 64) :: b64Char (b3 % 64) :: base64Encode rest

/-- `safeBtoa`: base64 of the UTF-8 bytes of the input (the success path of
the source helper; its catch branch never triggers for valid strings). -/
def safeBtoa (s : String) : String :=
  String.mk (base64Encode (strBytes s))

/-- Restaurant id of the Gemini-based `fetchRestaurants`
(geminiService.ts 158-182, in particular line 170):
`safeBtoa(\x7bsafeName\x7d-\x7bindex\x7d-\x7blocation\x7d).slice(0, 16)` —
note the array index in the id base. -/
def geminiRestaurantId (name : String) (index : Nat) (location : String) : String :=
  (safeBtoa (name ++ "-" ++ toString index ++ "-" ++ location)).take 16

/-- `replace(/[^a-zA-Z0-9]/g, '')`. -/
def stripNonAlnum (s : String) : String :=
  String.mk (s.toList.filter (fun ch => ch.isAlphanum))

/-- Deterministic restaurant id of the Places handlers (api/validate 262-264,
api/hydrate 163-165) and of the later `fetchRestaurants` revision
(part_007 149-152): base64 of the lowercased, trimmed `name-location`,
stripped to alphanumerics, first 24 characters. -/
def deterministicRestaurantId (name : String) (location : String) : String :=
  (stripNonAlnum (safeBtoa (trimStr (lowerStr (name ++ "-" ++ location))))).take 24

/-- A Google Places result, restricted to the fields the id assignment can
see. -/
structure PlaceResult where
  displayNameText : Option String
  formattedAddress : Option String
  primaryType : Option String
deriving DecidableEq, Repr

/-- Id assigned to a mapped candidate by the api/validate handler
(part_003 261-264): `place.displayName?.text || "Unknown Spot"` and the
location, nothing else. -/
def validateCandidateId (p : PlaceResult) (location : String) : String :=
  deterministicRestaurantId (p.displayNameText.getD "Unknown Spot") location

/- ### Basic lemmas about the record operations -/

theorem lookupCat_setAssoc_self (l : List (String × CategoryVote)) (c : String) (v : CategoryVote) :
    lookupCat (setAssoc l c v) c = v := by
  induction l with
  | nil => simp [setAssoc, lookupCat]
  | cons e rest ih =>
    by_cases h : e.1 = c <;> simp [setAssoc, lookupCat, h, ih]

theorem lookupCat_setAssoc_ne (l : List (String × CategoryVote)) (c c' : String)
    (v : CategoryVote) (h : c' ≠ c) :
    lookupCat (setAssoc l c v) c' = lookupCat l c' := by
  induction l with
  | nil => simp [setAssoc, lookupCat, Ne.symm h]
  | cons e rest ih =>
    by_cases hk : e.1 = c
    · subst hk
      simp [setAssoc, lookupCat, Ne.symm h]
    · by_cases hk' : e.1 = c' <;> simp [setAssoc, lookupCat, hk, hk', h, ih]

theorem sum_setAssoc (l : List (String × CategoryVote)) (c : String) (v : CategoryVote)
    (id : String) :
    ((setAssoc l c v).map (fun e => catScoreFor e.2 id)).sum
      = (l.map (fun e => catScoreFor e.2 id)).sum
        + catScoreFor v id - catScoreFor (lookupCat l c) id := by
  induction l with
  | nil => simp [setAssoc, lookupCat, catScoreFor, emptyCategoryVote]
  | cons e rest ih =>
    by_cases h : e.1 = c
    · simp [setAssoc, lookupCat, h]
      ring
    · simp [setAssoc, lookupCat, h, ih]
      ring

theorem deltaSumFor_append (ds es : List (String × Int)) (id : String) :
    deltaSumFor (ds ++ es) id = deltaSumFor ds id + deltaSumFor es id := by
  simp [deltaSumFor]

/- ### Frame lemmas for the transitions -/

theorem handleVote_overall_frame (s : UserVoteRecord) (id c : String) (slot : Slot) :
    (handleVote s id c slot).1.overallTopPick = s.overallTopPick := by
  simp only [handleVote]
  split <;> rfl

theorem handleVote_getCat_ne (s : UserVoteRecord) (id c c' : String) (slot : Slot)
    (h : c' ≠ c) :
    getCat (handleVote s id c slot).1 c' = getCat s c' := by
  simp only [handleVote, getCat]
  split <;> simp [lookupCat_setAssoc_ne _ _ _ _ h]

theorem handleVoteOverall_cat_frame (s : UserVoteRecord) (id : String) :
    (handleVoteOverall s id).1.categoryVotes = s.categoryVotes := by
  simp only [handleVoteOverall]
  split <;> rfl

/- ### The per-step delta/score accounting -/

theorem handleVote_getCat_self (s : UserVoteRecord) (id c : String) (slot : Slot) :
    getCat (handleVote s id c slot).1 c
      = (if getSlot (getCat s c) slot = some id then
          setSlot (getCat s c) slot none
         else
          setSlot (if getSlot (getCat s c) (otherSlot slot) = some id then
                     setSlot (getCat s c) (otherSlot slot) none
                   else getCat s c) slot (some id)) := by
  simp only [handleVote, getCat]
  split <;> simp_all [lookupCat_setAssoc_self]

theorem handleVote_deltaSum (s : UserVoteRecord) (id c x : String) (slot : Slot) :
    deltaSumFor (handleVote s id c slot).2 x
      = catScoreFor (getCat (handleVote s id c slot).1 c) x
        - catScoreFor (getCat s c) x := by
  rw [handleVote_getCat_self]
  unfold handleVote
  cases slot <;>
    rcases hv : getCat s c with ⟨t, r⟩ <;>
    · simp only [getSlot, setSlot, otherSlot, removalDelta, hv]
      rcases t with _ | p <;> rcases r with _ | q <;>
        simp only [deltaSumFor, catScoreFor, slotWeight] <;>
        split_ifs <;> simp_all

theorem handleVoteOverall_deltaSum (s : UserVoteRecord) (id x : String) :
    deltaSumFor (handleVoteOverall s id).2 x
      = (if (handleVoteOverall s id).1.overallTopPick = some x then (500 : Int) else 0)
        - (if s.overallTopPick = some x then (500 : Int) else 0) := by
  unfold handleVoteOverall
  rcases hp : s.overallTopPick with _ | p <;>
    · simp only [removalDelta, hp]
      split_ifs <;> simp_all [deltaSumFor]

theorem ledgerScore_handleVote (s : UserVoteRecord) (id c x : String) (slot : Slot) :
    ledgerScore (handleVote s id c slot).1 x - ledgerScore s x
      = catScoreFor (getCat (handleVote s id c slot).1 c) x - catScoreFor (getCat s c) x := by
  simp only [handleVote]
  split <;>
    · simp only [ledgerScore, getCat, lookupCat_setAssoc_self, sum_setAssoc]
      ring

theorem voteTransition_deltaSum (s : UserVoteRecord) (a : VoteAction) (x : String) :
    deltaSumFor (voteTransition s a).2 x
      = ledgerScore (voteTransition s a).1 x - ledgerScore s x := by
  cases a with
  | cat id c slot =>
    simp only [voteTransition]
    rw [handleVote_deltaSum, ← ledgerScore_handleVote]
  | overall id =>
    simp only [voteTransition]
    rw [handleVoteOverall_deltaSum]
    simp [ledgerScore, handleVoteOverall_cat_frame]

theorem runVotes_deltaSum (acts : List VoteAction) :
    ∀ (s : UserVoteRecord) (x : String),
      deltaSumFor (runVotes s acts).2 x
        = ledgerScore (runVotes s acts).1 x - ledgerScore s x := by
  induction acts with
  | nil => intro s x; simp [runVotes, deltaSumFor]
  | cons a as ih =>
    intro s x
    simp only [runVotes, deltaSumFor_append]
    rw [voteTransition_deltaSum, ih]
    ring

theorem ledgerScore_empty (x : String) : ledgerScore emptyRecord x = 0 := by
  simp [ledgerScore, emptyRecord]

/- ### Mutual exclusion after a category transition -/

theorem handleVote_mutualExclusion (s : UserVoteRecord) (id c : String) (slot : Slot) :
    mutualExclusion (getCat (handleVote s id c slot).1 c) := by
  rw [handleVote_getCat_self]
  rcases hv : getCat s c with ⟨t, r⟩
  cases slot <;> rcases t with _ | t <;> rcases r with _ | r <;>
    · simp only [getSlot, setSlot, otherSlot, mutualExclusion]
      split_ifs <;> simp_all <;> tauto

/- ### Membership lemmas for sorting and grouping -/

theorem mem_insertDesc (key : Restaurant → Int) (r x : Restaurant) (l : List Restaurant) :
    x ∈ insertDesc key r l ↔ x = r ∨ x ∈ l := by
  induction l with
  | nil => simp [insertDesc]
  | cons y ys ih =>
    by_cases h : key r ≤ key y
    · simp [insertDesc, h, ih]
      tauto
    · simp [insertDesc, h, ih]

theorem mem_sortByPointsDesc (gs : List (String × Int)) (uv : UserVoteRecord)
    (rs : List Restaurant) (x : Restaurant) :
    x ∈ sortByPointsDesc gs uv rs ↔ x ∈ rs := by
  induction rs with
  | nil => simp [sortByPointsDesc]
  | cons y ys ih =>
    simp only [sortByPointsDesc, List.foldr] at ih ⊢
    rw [mem_insertDesc, ih]
    simp

theorem mem_addToGroup (acc : List (String × List Restaurant)) (r x : Restaurant)
    (e : String × List Restaurant) (he : e ∈ addToGroup acc r) (hx : x ∈ e.2) :
    x = r ∨ ∃ e' ∈ acc, x ∈ e'.2 := by
  induction acc with
  | nil =>
    simp [addToGroup] at he
    subst he
    simp at hx
    exact Or.inl hx
  | cons a rest ih =>
    by_cases h : a.1 = r.category
    · simp only [addToGroup, h, if_pos] at he
      rcases List.mem_cons.mp he with h1 | h1
      · subst h1
        rcases List.mem_append.mp hx with h2 | h2
        · exact Or.inr ⟨a, List.mem_cons_self _ _, h2⟩
        · simp at h2
          exact Or.inl h2
      · exact Or.inr ⟨e, List.mem_cons_of_mem _ h1, hx⟩
    · simp only [addToGroup, h, if_neg, not_false_iff] at he
      rcases List.mem_cons.mp he with h1 | h1
      · exact Or.inr ⟨e, by rw [h1]; exact List.mem_cons_self _ _, hx⟩
      · rcases ih h1 with h2 | ⟨e', he', hx'⟩
        · exact Or.inl h2
        · exact Or.inr ⟨e', List.mem_cons_of_mem _ he', hx'⟩

theorem mem_foldl_addToGroup (l : List Restaurant) :
    ∀ (acc : List (String × List Restaurant)) (e : String × List Restaurant) (x : Restaurant),
      e ∈ l.foldl addToGroup acc → x ∈ e.2 → x ∈ l ∨ ∃ e' ∈ acc, x ∈ e'.2 := by
  induction l with
  | nil =>
    intro acc e x he hx
    exact Or.inr ⟨e, he, hx⟩
  | cons r rest ih =>
    intro acc e x he hx
    rcases ih (addToGroup acc r) e x he hx with h1 | ⟨e', he', hx'⟩
    · exact Or.inl (List.mem_cons_of_mem _ h1)
    · rcases mem_addToGroup acc r x e' he' hx' with h2 | ⟨e'', he'', hx''⟩
      · subst h2
        exact Or.inl (List.mem_cons_self _ _)
      · exact Or.inr ⟨e'', he'', hx''⟩

/- ### Rebuild-projection lemmas for the stored vote documents -/

theorem getCat_applyVoteDoc (acc : UserVoteRecord) (d : StoredVote) (c : String) :
    lookupCat (applyVoteDoc acc d).categoryVotes c
      = catDocStep c (lookupCat acc.categoryVotes c) d := by
  rcases d with ⟨u, rid, cat, k⟩
  rcases k <;> rcases cat with _ | k' <;>
    simp only [applyVoteDoc, catDocStep]
  all_goals
    by_cases h : k' = c
  all_goals
    simp_all [lookupCat_setAssoc_self, lookupCat_setAssoc_ne _ _ _ _ (Ne.symm _)]
  all_goals
    rw [lookupCat_setAssoc_ne _ _ _ _ (Ne.symm h)]

theorem overall_applyVoteDoc (acc : UserVoteRecord) (d : StoredVote) :
    (applyVoteDoc acc d).overallTopPick = ovDocStep acc.overallTopPick d := by
  rcases d with ⟨u, rid, cat, k⟩
  rcases k <;> rcases cat with _ | k' <;> simp [applyVoteDoc, ovDocStep]

theorem getCat_foldl_applyVoteDoc (l : List StoredVote) :
    ∀ (acc : UserVoteRecord) (c : String),
      lookupCat (l.foldl applyVoteDoc acc).categoryVotes c
        = l.foldl (catDocStep c) (lookupCat acc.categoryVotes c) := by
  induction l with
  | nil => intro acc c; rfl
  | cons d rest ih =>
    intro acc c
    simp only [List.foldl]
    rw [ih, getCat_applyVoteDoc]

theorem overall_foldl_applyVoteDoc (l : List StoredVote) :
    ∀ (acc : UserVoteRecord),
      (l.foldl applyVoteDoc acc).overallTopPick
        = l.foldl ovDocStep acc.overallTopPick := by
  induction l with
  | nil => intro acc; rfl
  | cons d rest ih =>
    intro acc
    simp only [List.foldl]
    rw [ih, overall_applyVoteDoc]

theorem foldl_filter_of_id {α β : Type} (g : β → α → β) (p : α → Bool) (l : List α) :
    ∀ (x : β), (∀ a ∈ l, p a = false → ∀ y, g y a = y) →
      (l.filter p).foldl g x = l.foldl g x := by
  induction l with
  | nil => intro x _; rfl
  | cons a rest ih =>
    intro x h
    rcases hp : p a with _ | _
    · simp only [List.filter, hp, List.foldl]
      rw [ih x (fun b hb => h b (List.mem_cons_of_mem _ hb)),
        h a (List.mem_cons_self _ _) hp x]
    · simp only [List.filter, hp, List.foldl]
      exact ih (g x a) (fun b hb => h b (List.mem_cons_of_mem _ hb))

theorem purgeVotes_catDocStep_id (c rid oldCat : String) (d : StoredVote)
    (hc : c ≠ oldCat)
    (hd : (!(d.restaurantId == rid && d.category == some oldCat)) = false) :
    ∀ v, catDocStep c v d = v := by
  intro v
  have hd' : d.restaurantId = rid ∧ d.category = some oldCat := by
    simpa using hd
  rcases hk : d.voteType <;> simp [catDocStep, hk, hd'.2, Ne.symm hc]

theorem getCat_buildRecord_purge (u rid oldCat c : String) (docs : List StoredVote)
    (hc : c ≠ oldCat) :
    getCat (buildRecord u (purgeVotes docs rid oldCat)) c
      = getCat (buildRecord u docs) c := by
  unfold buildRecord purgeVotes getCat
  rw [List.filter_comm]
  rw [getCat_foldl_applyVoteDoc, getCat_foldl_applyVoteDoc]
  exact foldl_filter_of_id _ _ _ _
    (fun d _ hd => purgeVotes_catDocStep_id c rid oldCat d hc hd)

theorem overall_buildRecord_purge (u rid oldCat : String) (docs : List StoredVote)
    (hwf : ∀ d ∈ docs, d.voteType = VoteKind.overall → d.category = none) :
    (buildRecord u (purgeVotes docs rid oldCat)).overallTopPick
      = (buildRecord u docs).overallTopPick := by
  unfold buildRecord purgeVotes
  rw [List.filter_comm]
  rw [overall_foldl_applyVoteDoc, overall_foldl_applyVoteDoc]
  refine foldl_filter_of_id _ _ _ _ (fun d hd hfalse x => ?_)
  simp only [Bool.not_eq_false, Bool.and_eq_true, beq_iff_eq] at hfalse
  have hmem : d ∈ docs := (List.mem_filter.mp hd).1
  rcases hk : d.voteType with _ | _ | _
  · simp [ovDocStep, hk]
  · simp [ovDocStep, hk]
  · have := hwf d hmem hk
    rw [this] at hfalse
    simp at hfalse

theorem syncDeltas_offline (dbPresent isGlobalLive : Bool) (gs : List (String × Int))
    (ds : List (String × Int)) (h : dbPresent = false ∨ isGlobalLive = false) :
    syncDeltas dbPresent isGlobalLive gs ds = gs := by
  induction ds generalizing gs with
  | nil => rfl
  | cons d rest ih =>
    have hs : syncVoteToFirebase dbPresent isGlobalLive gs d.1 d.2 = gs := by
      rcases h with h | h <;> simp [syncVoteToFirebase, h]
    simp only [syncDeltas, List.foldl] at ih ⊢
    rw [hs, ih]

theorem overallContribution_sum (s : UserVoteRecord) (ids : List String)
    (hnd : ids.Nodup) :
    (ids.map (overallContribution s)).sum = 0
      ∨ (ids.map (overallContribution s)).sum = 500 := by
  rcases hp : s.overallTopPick with _ | p
  · left
    induction ids with
    | nil => rfl
    | cons i rest ih =>
      simp only [List.map, List.sum_cons, overallContribution, hp]
      simp [ih (List.Nodup.of_cons hnd)]
  · have key : ∀ (l : List String), l.Nodup →
        (l.map (overallContribution s)).sum = (if p ∈ l then (500 : Int) else 0) := by
      intro l
      induction l with
      | nil => intro _; rfl
      | cons i rest ih =>
        intro hl
        simp only [List.map, List.sum_cons, overallContribution, hp]
        rw [ih hl.of_cons]
        by_cases hip : p = i
        · subst hip
          have hni : p ∉ rest := (List.nodup_cons.mp hl).1
          simp [List.mem_cons, hni]
        · simp [List.mem_cons, hip, Ne.symm hip]
    rw [key ids hnd]
    split_ifs <;> simp

/- ### Slot helper lemmas -/

theorem getSlot_setSlot_same (v : CategoryVote) (sl : Slot) (x : Option String) :
    getSlot (setSlot v sl x) sl = x := by
  cases sl <;> rfl

theorem getSlot_setSlot_other (v : CategoryVote) (sl : Slot) (x : Option String) :
    getSlot (setSlot v sl x) (otherSlot sl) = getSlot v (otherSlot sl) := by
  cases sl <;> rfl

theorem setSlot_setSlot (v : CategoryVote) (sl : Slot) (x y : Option String) :
    setSlot (setSlot v sl x) sl y = setSlot v sl y := by
  cases sl <;> rfl

theorem setSlot_getSlot_self (v : CategoryVote) (sl : Slot) :
    setSlot v sl (getSlot v sl) = v := by
  cases sl <;> rfl

theorem mutualExclusion_other (v : CategoryVote) (slot : Slot) (id : String)
    (hme : mutualExclusion v) (h : getSlot v slot = some id) :
    getSlot v (otherSlot slot) ≠ some id := by
  intro hcontra
  rcases hme with ⟨hh1, hh2⟩ | hne <;>
    cases slot <;> simp_all [getSlot, otherSlot]

theorem handleVote_eq_pos (s : UserVoteRecord) (id c : String) (slot : Slot)
    (h : getSlot (getCat s c) slot = some id) :
    handleVote s id c slot
      = ({ s with categoryVotes := setAssoc s.categoryVotes c (setSlot (getCat s c) slot none) },
          [(id, -slotWeight slot)]) := by
  simp [handleVote, h]

theorem handleVote_eq_neg_noclear (s : UserVoteRecord) (id c : String) (slot : Slot)
    (h : getSlot (getCat s c) slot ≠ some id)
    (ho : getSlot (getCat s c) (otherSlot slot) ≠ some id) :
    handleVote s id c slot
      = ({ s with categoryVotes := setAssoc s.categoryVotes c (setSlot (getCat s c) slot (some id)) },
          removalDelta (getSlot (getCat s c) slot) id (slotWeight slot) ++ [(id, slotWeight slot)]) := by
  simp [handleVote, h, ho]

/- ### The claims -/

theorem wellFormed_voteTransition (s : UserVoteRecord) (a : VoteAction) (h : wellFormed s) :
    wellFormed (voteTransition s a).1 := by
  cases a with
  | cat id c slot =>
    intro c'
    by_cases hc : c' = c
    · subst hc
      exact handleVote_mutualExclusion s id c' slot
    · show mutualExclusion (getCat (handleVote s id c slot).1 c')
      rw [handleVote_getCat_ne s id c c' slot hc]
      exact h c'
  | overall id =>
    intro c'
    show mutualExclusion (getCat (handleVoteOverall s id).1 c')
    unfold getCat
    rw [handleVoteOverall_cat_frame]
    exact h c'

/-- C3: after any sequence of vote transitions starting from a well-formed
ledger, every category of the resulting ledger satisfies
`topId ≠ runnerUpId` unless both are null — a restaurant never holds both
slots of one category. -/
theorem mutual_exclusion_after_any_sequence (s : UserVoteRecord) (acts : List VoteAction)
    (h : wellFormed s) : wellFormed (runVotes s acts).1 := by
  induction acts generalizing s with
  | nil => exact h
  | cons a as ih => exact ih (voteTransition s a).1 (wellFormed_voteTransition s a h)

/-- Witness for C3: the invariant holds concretely after a sample sequence
run from the empty (well-formed) ledger. -/
theorem mutual_exclusion_after_any_sequence_witness :
    wellFormed (runVotes emptyRecord
      [VoteAction.cat "A" "BBQ" Slot.top, VoteAction.cat "A" "BBQ" Slot.runnerUp,
       VoteAction.overall "A"]).1 :=
  mutual_exclusion_after_any_sequence emptyRecord _ (fun _ => Or.inl ⟨rfl, rfl⟩)

/-- C4 (amended): double application of the same category vote restores the
ledger and nets 0 deltas for the id — provided the targeted slot already
holds the id, or is empty while the opposite slot does not hold the id.
(When the slot holds a different restaurant, or the opposite slot holds the
id, the double application does not restore the original state; see the
counterexample.) The toggle-off call emits the single negative delta. -/
theorem toggle_restores_ledger (s : UserVoteRecord) (id c : String) (slot : Slot)
    (hme : mutualExclusion (getCat s c))
    (h : getSlot (getCat s c) slot = some id ∨
         (getSlot (getCat s c) slot = none ∧ getSlot (getCat s c) (otherSlot slot) ≠ some id)) :
    (∀ c', getCat (handleVote (handleVote s id c slot).1 id c slot).1 c' = getCat s c')
    ∧ (handleVote (handleVote s id c slot).1 id c slot).1.overallTopPick = s.overallTopPick
    ∧ deltaSumFor ((handleVote s id c slot).2
        ++ (handleVote (handleVote s id c slot).1 id c slot).2) id = 0
    ∧ (getSlot (getCat s c) slot = some id →
        (handleVote s id c slot).2 = [(id, -slotWeight slot)]) := by
  rcases h with h1 | ⟨h1, h2⟩
  · have hother : getSlot (getCat s c) (otherSlot slot) ≠ some id :=
      mutualExclusion_other _ _ _ hme h1
    have e1 := handleVote_eq_pos s id c slot h1
    have hcat1 : getCat (handleVote s id c slot).1 c = setSlot (getCat s c) slot none := by
      rw [e1]
      exact lookupCat_setAssoc_self _ _ _
    have hso : getSlot (getCat (handleVote s id c slot).1 c) slot ≠ some id := by
      rw [hcat1, getSlot_setSlot_same]
      simp
    have hoo : getSlot (getCat (handleVote s id c slot).1 c) (otherSlot slot) ≠ some id := by
      rw [hcat1, getSlot_setSlot_other]
      exact hother
    have e2 := handleVote_eq_neg_noclear (handleVote s id c slot).1 id c slot hso hoo
    refine ⟨?_, ?_, ?_, fun _ => by rw [e1]⟩
    · intro c'
      by_cases hc : c' = c
      · subst hc
        show lookupCat _ c' = lookupCat s.categoryVotes c'
        rw [e2]
        simp only
        rw [lookupCat_setAssoc_self, hcat1, setSlot_setSlot, ← h1, setSlot_getSlot_self]
        rfl
      · show lookupCat _ c' = lookupCat s.categoryVotes c'
        rw [e2]
        simp only
        rw [lookupCat_setAssoc_ne _ _ _ _ hc]
        rw [e1]
        simp only
        rw [lookupCat_setAssoc_ne _ _ _ _ hc]
    · exact (handleVote_overall_frame _ _ _ _).trans (handleVote_overall_frame _ _ _ _)
    · have hd1 : (handleVote s id c slot).2 = [(id, -slotWeight slot)] := by rw [e1]
      have hd2 : (handleVote (handleVote s id c slot).1 id c slot).2
          = [(id, slotWeight slot)] := by
        rw [e2]
        simp only
        rw [hcat1, getSlot_setSlot_same]
        rfl
      rw [hd1, hd2]
      simp [deltaSumFor]
  · have hne : getSlot (getCat s c) slot ≠ some id := by rw [h1]; simp
    have e1 := handleVote_eq_neg_noclear s id c slot hne h2
    have hcat1 : getCat (handleVote s id c slot).1 c = setSlot (getCat s c) slot (some id) := by
      rw [e1]
      exact lookupCat_setAssoc_self _ _ _
    have hso : getSlot (getCat (handleVote s id c slot).1 c) slot = some id := by
      rw [hcat1, getSlot_setSlot_same]
    have e2 := handleVote_eq_pos (handleVote s id c slot).1 id c slot hso
    refine ⟨?_, ?_, ?_, fun hcontra => absurd hcontra hne⟩
    · intro c'
      by_cases hc : c' = c
      · subst hc
        show lookupCat _ c' = lookupCat s.categoryVotes c'
        rw [e2]
        simp only
        rw [lookupCat_setAssoc_self, hcat1, setSlot_setSlot, ← h1, setSlot_getSlot_self]
        rfl
      · show lookupCat _ c' = lookupCat s.categoryVotes c'
        rw [e2]
        simp only
        rw [lookupCat_setAssoc_ne _ _ _ _ hc]
        rw [e1]
        simp only
        rw [lookupCat_setAssoc_ne _ _ _ _ hc]
    · exact (handleVote_overall_frame _ _ _ _).trans (handleVote_overall_frame _ _ _ _)
    · have hd1 : (handleVote s id c slot).2 = [(id, slotWeight slot)] := by
        rw [e1]
        simp only
        rw [h1]
        rfl
      have hd2 : (handleVote (handleVote s id c slot).1 id c slot).2
          = [(id, -slotWeight slot)] := by rw [e2]
      rw [hd1, hd2]
      simp [deltaSumFor]

/-- Witness for C4: double-toggling a fresh top vote on the empty ledger
restores it and nets zero deltas. -/
theorem toggle_restores_ledger_witness :
    (∀ c', getCat (handleVote (handleVote emptyRecord "A" "BBQ" Slot.top).1
        "A" "BBQ" Slot.top).1 c' = getCat emptyRecord c')
    ∧ (handleVote (handleVote emptyRecord "A" "BBQ" Slot.top).1
        "A" "BBQ" Slot.top).1.overallTopPick = emptyRecord.overallTopPick
    ∧ deltaSumFor ((handleVote emptyRecord "A" "BBQ" Slot.top).2
        ++ (handleVote (handleVote emptyRecord "A" "BBQ" Slot.top).1 "A" "BBQ" Slot.top).2) "A" = 0
    ∧ (getSlot (getCat emptyRecord "BBQ") Slot.top = some "A" →
        (handleVote emptyRecord "A" "BBQ" Slot.top).2 = [("A", -slotWeight Slot.top)]) :=
  toggle_restores_ledger emptyRecord "A" "BBQ" Slot.top (by decide) (Or.inr (by decide))

/-- Counterexample for C4 as stated: with "B" holding the top slot of "BBQ",
applying `setCategoryVote("BBQ", "A", top)` twice does NOT return the ledger
to its original state — the first call displaces "B" and the second call
toggles "A" off, leaving the slot empty instead of restoring "B". -/
theorem toggle_not_involutive_counterexample :
    getCat (handleVote (handleVote ⟨[("BBQ", ⟨some "B", none⟩)], none⟩
        "A" "BBQ" Slot.top).1 "A" "BBQ" Slot.top).1 "BBQ"
      ≠ getCat (⟨[("BBQ", ⟨some "B", none⟩)], none⟩ : UserVoteRecord) "BBQ" := by
  decide

/-- C5: moving the overall pick from `a` to a different `b` emits exactly
`[(a, −500), (b, +500)]` and sets the pick to `b`; calling again with the
current pick toggles it off emitting only `(b, −500)`; over any duplicate-free
set of restaurant ids, the overall-pick contributions sum to 0 or 500, never
more. -/
theorem overall_pick_moves (s : UserVoteRecord) (a b : String)
    (h : s.overallTopPick = some a) (hab : a ≠ b) :
    (handleVoteOverall s b).2 = [(a, -500), (b, 500)]
    ∧ (handleVoteOverall s b).1.overallTopPick = some b
    ∧ (handleVoteOverall (handleVoteOverall s b).1 b).2 = [(b, -500)]
    ∧ (handleVoteOverall (handleVoteOverall s b).1 b).1.overallTopPick = none
    ∧ (∀ (t : UserVoteRecord) (ids : List String), ids.Nodup →
        (ids.map (overallContribution t)).sum = 0
          ∨ (ids.map (overallContribution t)).sum = 500) := by
  have hne : ¬ s.overallTopPick = some b := by
    rw [h]
    simp [hab]
  have hfst : (handleVoteOverall s b).1.overallTopPick = some b := by
    simp [handleVoteOverall, hne]
  refine ⟨?_, hfst, ?_, ?_, fun t ids hnd => overallContribution_sum t ids hnd⟩
  · simp [handleVoteOverall, hne, removalDelta, h, hab]
  · generalize hgen : (handleVoteOverall s b).1 = t at hfst ⊢
    simp [handleVoteOverall, hfst]
  · generalize hgen : (handleVoteOverall s b).1 = t at hfst ⊢
    simp [handleVoteOverall, hfst]

/-- Witness for C5: the pick moves from "A" to "B" concretely. -/
theorem overall_pick_moves_witness :
    (handleVoteOverall (⟨[], some "A"⟩ : UserVoteRecord) "B").2 = [("A", -500), ("B", 500)] :=
  (overall_pick_moves ⟨[], some "A"⟩ "A" "B" rfl (by decide)).1

/-- C1 (amended): for every sequence of vote transitions run from the empty
ledger, the sum of all emitted deltas for a restaurant id equals 100 per
category in which the id is the final top choice, plus 25 per category in
which it is the final runner-up, plus 500 if it is the final overall pick
(`ledgerScore`). The claim's per-indicator form (a flat 100/25 regardless of
how many categories the id occupies) fails; see the counterexample. -/
theorem delta_conservation (acts : List VoteAction) (x : String) :
    deltaSumFor (runVotes emptyRecord acts).2 x
      = ledgerScore (runVotes emptyRecord acts).1 x := by
  have h := runVotes_deltaSum acts emptyRecord x
  rw [ledgerScore_empty] at h
  simpa using h

/-- Counterexample for C1 as stated: top-voting "X" in the two categories
"A" and "B" emits deltas summing to 200 for "X", while the claim's indicator
formula evaluates to 100 on the final ledger ("X" is a top choice in some
category, no runner-up, no overall pick). -/
theorem delta_conservation_counterexample :
    deltaSumFor (runVotes emptyRecord
        [VoteAction.cat "X" "A" Slot.top, VoteAction.cat "X" "B" Slot.top]).2 "X" = 200
    ∧ claimIndicatorScore (runVotes emptyRecord
        [VoteAction.cat "X" "A" Slot.top, VoteAction.cat "X" "B" Slot.top]).1 "X" = 100
    ∧ deltaSumFor (runVotes emptyRecord
        [VoteAction.cat "X" "A" Slot.top, VoteAction.cat "X" "B" Slot.top]).2 "X"
      ≠ claimIndicatorScore (runVotes emptyRecord
        [VoteAction.cat "X" "A" Slot.top, VoteAction.cat "X" "B" Slot.top]).1 "X" := by
  refine ⟨by decide, by decide, by decide⟩

/-- C2: the displayed total `getRestaurantPoints` equals the spec's
`computeTotal` formula — base score plus the snapshot entry for the id (0
when absent, and 0 against the empty snapshot of local-only mode) plus
`localUserContribution`; as a Lean function of exactly these three inputs it
is pure and deterministic. -/
theorem getRestaurantPoints_eq_computeTotal (gs : List (String × Int))
    (uv : UserVoteRecord) (r : Restaurant) :
    getRestaurantPoints gs uv r = computeTotalSpec r uv (some gs)
    ∧ getRestaurantPoints [] uv r = computeTotalSpec r uv none := by
  constructor <;>
    simp only [getRestaurantPoints, computeTotalSpec, localUserContribution, lookupScore]

/-- C10: `getRestaurantPoints` reads the user's category votes only through
the entry stored under the restaurant's own category — two ledgers agreeing
there (and on the overall pick) yield the same total, and a vote recorded
under any other category contributes nothing — while the 500-point overall
pick applies regardless of the restaurant's category. -/
theorem points_scoped_to_restaurant_category :
    (∀ (gs : List (String × Int)) (uv uv' : UserVoteRecord) (r : Restaurant),
        getCat uv r.category = getCat uv' r.category →
        uv.overallTopPick = uv'.overallTopPick →
        getRestaurantPoints gs uv r = getRestaurantPoints gs uv' r)
    ∧ (∀ (gs : List (String × Int)) (uv : UserVoteRecord) (r : Restaurant)
          (c : String) (v : CategoryVote),
        c ≠ r.category →
        getRestaurantPoints gs { uv with categoryVotes := setAssoc uv.categoryVotes c v } r
          = getRestaurantPoints gs uv r)
    ∧ (∀ (gs : List (String × Int)) (uv : UserVoteRecord) (r : Restaurant),
        uv.overallTopPick = some r.id →
        getRestaurantPoints gs uv r
          = r.basePoints + lookupScore gs r.id
            + catScoreFor (getCat uv r.category) r.id + 500) := by
  refine ⟨?_, ?_, ?_⟩
  · intro gs uv uv' r h1 h2
    simp [getRestaurantPoints, h1, h2]
  · intro gs uv r c v hc
    have hcat : getCat { uv with categoryVotes := setAssoc uv.categoryVotes c v } r.category
        = getCat uv r.category := by
      show lookupCat _ _ = _
      exact lookupCat_setAssoc_ne _ _ _ _ (Ne.symm hc)
    simp [getRestaurantPoints, hcat]
  · intro gs uv r h
    simp [getRestaurantPoints, catScoreFor, h]
    try ring

/-- Witness for C10: a top vote stored under "Tacos" adds nothing to a
restaurant whose category is "Pizza". -/
theorem points_scoped_to_restaurant_category_witness :
    getRestaurantPoints []
        { emptyRecord with
            categoryVotes := setAssoc emptyRecord.categoryVotes "Tacos" ⟨some "r1", none⟩ }
        ⟨"r1", "X", "Pizza", "", none, 100⟩
      = getRestaurantPoints [] emptyRecord ⟨"r1", "X", "Pizza", "", none, 100⟩ :=
  points_scoped_to_restaurant_category.2.1 [] emptyRecord
    ⟨"r1", "X", "Pizza", "", none, 100⟩ "Tacos" ⟨some "r1", none⟩ (by decide)

/-- C6 (amended): the search filter is applied before grouping — a
restaurant excluded by the filter appears in no category bucket of
`groupedRestaurants` (and so counts toward no bucket's size) — while the
"Best This Week" list `topRestaurants` is computed from ALL restaurants,
unfiltered, as the sort of the full list cut to 10; with an empty query the
filter excludes nothing, so there the two agree. The claim's assertion that
the top-N list is built from the filtered restaurants fails; see the
counterexample. -/
theorem filter_before_grouping (q : String) (gs : List (String × Int))
    (uv : UserVoteRecord) (rs : List Restaurant) :
    (∀ (r : Restaurant) (e : String × List Restaurant),
        passesFilter q r = false → e ∈ groupedRestaurants q gs uv rs → r ∉ e.2)
    ∧ topRestaurants gs uv rs = (sortByPointsDesc gs uv rs).take 10
    ∧ (queryTerms q = [] → rs.filter (passesFilter q) = rs) := by
  refine ⟨?_, rfl, ?_⟩
  · intro r e hf he hmem
    rcases List.mem_map.mp he with ⟨e', he', heq⟩
    have hr : r ∈ e'.2 := by
      have hmem' : r ∈ sortByPointsDesc gs uv e'.2 := by
        rw [← heq] at hmem
        exact hmem
      exact (mem_sortByPointsDesc gs uv e'.2 r).mp hmem'
    rcases mem_foldl_addToGroup (rs.filter (passesFilter q)) [] e' r he' hr with h1 | ⟨e'', he'', _⟩
    · have htrue := (List.mem_filter.mp h1).2
      rw [hf] at htrue
      exact Bool.false_ne_true htrue
    · simp at he''
  · intro hq
    apply List.filter_eq_self.mpr
    intro r _
    simp [passesFilter, hq]

/-- Witness for C6: with query "taco", the filtered-out pizza restaurant is
absent from the single "Tacos" bucket that grouping produces. -/
theorem filter_before_grouping_witness :
    (⟨"id0", "Pizza Hut", "Pizza", "addr", none, 100⟩ : Restaurant)
      ∉ (("Tacos", [(⟨"id1", "Taco Spot", "Tacos", "addr", none, 100⟩ : Restaurant)])
          : String × List Restaurant).2 :=
  (filter_before_grouping "taco" [] emptyRecord
      [⟨"id0", "Pizza Hut", "Pizza", "addr", none, 100⟩,
       ⟨"id1", "Taco Spot", "Tacos", "addr", none, 100⟩]).1
    ⟨"id0", "Pizza Hut", "Pizza", "addr", none, 100⟩
    ("Tacos", [⟨"id1", "Taco Spot", "Tacos", "addr", none, 100⟩])
    (by decide) (by decide)

/-- Counterexample for C6 as stated: under query "taco" the pizza restaurant
fails the filter, yet it appears in `topRestaurants`, because the top-N list
is computed from the unfiltered restaurant list. -/
theorem top_list_ignores_filter_counterexample :
    passesFilter "taco" ⟨"id0", "Pizza Hut", "Pizza", "addr", none, 100⟩ = false
    ∧ (⟨"id0", "Pizza Hut", "Pizza", "addr", none, 100⟩ : Restaurant)
        ∈ topRestaurants [] emptyRecord [⟨"id0", "Pizza Hut", "Pizza", "addr", none, 100⟩] := by
  refine ⟨by decide, by decide⟩

/-- C9: with the global subscription not live (or no database handle), a
vote transition leaves the global tally completely unchanged —
`syncVoteToFirebase` drops every delta, with no queue to replay — while,
whenever the database handle exists, the user's own vote record still
updates exactly as the transition dictates; with no database handle the
handler returns before any state change. -/
theorem offline_votes_leave_tally_unchanged (dbPresent isGlobalLive : Bool)
    (gs : List (String × Int)) (s : UserVoteRecord) (a : VoteAction)
    (h : isGlobalLive = false ∨ dbPresent = false) :
    (voteStepFull dbPresent isGlobalLive gs s a).1 = gs
    ∧ (dbPresent = true →
        (voteStepFull dbPresent isGlobalLive gs s a).2 = (voteTransition s a).1)
    ∧ (dbPresent = false → voteStepFull dbPresent isGlobalLive gs s a = (gs, s)) := by
  have hsync : ∀ ds, syncDeltas dbPresent isGlobalLive gs ds = gs := fun ds =>
    syncDeltas_offline dbPresent isGlobalLive gs ds (h.elim Or.inr Or.inl)
  refine ⟨?_, ?_, ?_⟩
  · rcases hdb : dbPresent
    · simp [voteStepFull, hdb]
    · subst hdb
      simp [voteStepFull, hsync]
  · intro hdb
    simp [voteStepFull, hdb]
  · intro hdb
    simp [voteStepFull, hdb]

/-- Witness for C9: a concrete overall vote in not-live mode leaves the
empty tally empty. -/
theorem offline_votes_leave_tally_unchanged_witness :
    (voteStepFull true false [] emptyRecord (VoteAction.overall "A")).1 = [] :=
  (offline_votes_leave_tally_unchanged true false [] emptyRecord
    (VoteAction.overall "A") (Or.inl rfl)).1

/-- C8 (amended): the ids assigned by the Places handlers
(`deterministicRestaurantId`, used by api/validate, api/hydrate and the later
`fetchRestaurants` revision) are a function of the display name and the
location only — two candidates with the same name get the same id whatever
their other fields — but the id of the Gemini-based `fetchRestaurants` in
geminiService.ts additionally depends on the record's position in the
response array, so for that producer re-submission is not idempotent; see
the counterexample. -/
theorem places_id_deterministic (p q : PlaceResult) (location : String)
    (h : p.displayNameText = q.displayNameText) :
    validateCandidateId p location = validateCandidateId q location := by
  simp [validateCandidateId, h]

/-- Witness for C8: two Places results with the same display name but
different addresses and types receive the same id. -/
theorem places_id_deterministic_witness :
    validateCandidateId ⟨some "Frontier", some "5400 Central Ave", none⟩ "Albuquerque"
      = validateCandidateId ⟨some "Frontier", some "other addr", some "cafe"⟩ "Albuquerque" :=
  places_id_deterministic ⟨some "Frontier", some "5400 Central Ave", none⟩
    ⟨some "Frontier", some "other addr", some "cafe"⟩ "Albuquerque" rfl

/-- Counterexample for C8 as stated: the Gemini-based `fetchRestaurants`
derives the id from name, ARRAY INDEX and location, so the same restaurant
name at positions 0 and 1 of two responses gets two different ids — the id
is not a function of name and location only. -/
theorem gemini_id_depends_on_index_counterexample :
    geminiRestaurantId "A" 0 "L" ≠ geminiRestaurantId "A" 1 "L" := by
  decide

/-- C7: `updateRestaurantCategory` sets the restaurant's category to the new
category and, in the same transition, deletes exactly the stored votes whose
restaurantId is the given id and whose category field is the old category —
it deletes nothing else and creates nothing; consequently, for a user whose
rebuilt ledger had a top vote on the restaurant under the old category (and
nothing on it under the new one), the displayed total drops by exactly 100
and no contribution is re-attributed under the new category. -/
theorem recategorize_purges_votes (rs : List Restaurant) (docs : List StoredVote)
    (gs : List (String × Int)) (u rid oldCat newCat : String) (r : Restaurant)
    (hwf : ∀ d ∈ docs, d.voteType = VoteKind.overall → d.category = none)
    (hrid : r.id = rid) (hrcat : r.category = oldCat) (hnc : newCat ≠ oldCat)
    (htop : (getCat (buildRecord u docs) oldCat).topId = some rid)
    (hru : (getCat (buildRecord u docs) oldCat).runnerUpId ≠ some rid)
    (hnt : (getCat (buildRecord u docs) newCat).topId ≠ some rid)
    (hnr : (getCat (buildRecord u docs) newCat).runnerUpId ≠ some rid) :
    (∀ r' ∈ (updateRestaurantCategory rs docs rid newCat oldCat).1,
        r'.id = rid → r'.category = newCat)
    ∧ (∀ d ∈ (updateRestaurantCategory rs docs rid newCat oldCat).2, d ∈ docs)
    ∧ (∀ d ∈ docs, d.restaurantId = rid → d.category = some oldCat →
        d ∉ (updateRestaurantCategory rs docs rid newCat oldCat).2)
    ∧ getRestaurantPoints gs
        (buildRecord u (updateRestaurantCategory rs docs rid newCat oldCat).2)
        { r with category := newCat }
      = getRestaurantPoints gs (buildRecord u docs) r - 100 := by
  refine ⟨?_, ?_, ?_, ?_⟩
  · intro r' hr' hid
    rcases List.mem_map.mp hr' with ⟨x, _, hx⟩
    by_cases hxid : x.id = rid
    · rw [← hx]
      simp [hxid]
    · rw [← hx] at hid
      simp [hxid] at hid
  · intro d hd
    exact List.mem_of_mem_filter hd
  · intro d hd h1 h2 hcontra
    have := (List.mem_filter.mp hcontra).2
    simp [h1, h2] at this
  · have hA : getCat (buildRecord u (purgeVotes docs rid oldCat)) newCat
        = getCat (buildRecord u docs) newCat :=
      getCat_buildRecord_purge u rid oldCat newCat docs hnc
    have hO : (buildRecord u (purgeVotes docs rid oldCat)).overallTopPick
        = (buildRecord u docs).overallTopPick :=
      overall_buildRecord_purge u rid oldCat docs hwf
    show getRestaurantPoints gs (buildRecord u (purgeVotes docs rid oldCat)) _ = _
    simp only [getRestaurantPoints]
    simp only [hrid, hrcat] at htop hru hnt hnr ⊢
    simp [hA, hO, hrid, hrcat, htop, hru, hnt, hnr]
    ring

/-- Witness for C7: recategorizing "r1" from "Pizza" to "Tacos" with one
stored top vote drops the displayed total by exactly 100. -/
theorem recategorize_purges_votes_witness :
    getRestaurantPoints []
        (buildRecord "u1" (updateRestaurantCategory
            [⟨"r1", "Spot", "Pizza", "", none, 100⟩]
            [⟨"u1", "r1", some "Pizza", VoteKind.top⟩] "r1" "Tacos" "Pizza").2)
        { (⟨"r1", "Spot", "Pizza", "", none, 100⟩ : Restaurant) with category := "Tacos" }
      = getRestaurantPoints []
          (buildRecord "u1" [⟨"u1", "r1", some "Pizza", VoteKind.top⟩])
          (⟨"r1", "Spot", "Pizza", "", none, 100⟩ : Restaurant) - 100 :=
  (recategorize_purges_votes
    [⟨"r1", "Spot", "Pizza", "", none, 100⟩]
    [⟨"u1", "r1", some "Pizza", VoteKind.top⟩]
    [] "u1" "r1" "Pizza" "Tacos" ⟨"r1", "Spot", "Pizza", "", none, 100⟩
    (by decide) rfl rfl (by decide)
    (by decide) (by decide) (by decide) (by decide)).2.2.2
